import Mathlib

/-!
Verification of the Redis queue worker (`python/cog/server/redis_queue.py`).

The development shallowly embeds the worker: the Predictor (`PredictionRunner`)
is a black box polled through `is_processing` / `has_logs_waiting` /
`has_output_waiting` / `read_logs` / `read_output` / `error` /
`is_output_generator`; we represent one job's observable behaviour of that
black box as a `Runner` value: a list of `Tick`s, one per polling-loop
iteration while `is_processing()` is true, plus the values the terminal calls
return once processing has stopped.  Redis is idealised as a reliable
transport: a push always succeeds, and the frames pushed to the per-job reply
channel are collected into a list.  The asynchronous `SIGALRM`-based firing of
the `timeout` context manager mid-run is not representable in a pure
embedding; the deterministic entry check of `timeout.__enter__`
(`seconds <= 0` raises immediately) is embedded faithfully.
-/

/-- Output values handled by the worker; their internal structure is
irrelevant to the worker's control flow, so plain strings are used. -/
abbrev Val := String

/-- `Status` from `cog.response`, as serialised into the frames:
`Status.PROCESSING`, `Status.SUCCEEDED`, `Status.FAILED`. -/
inductive Status where
  | processing
  | succeeded
  | failed
deriving DecidableEq, Repr

/-- The `output` entry of a response dict: `None`, a single encoded value
(scalar mode), or a list of encoded values (generator mode). -/
inductive OutVal where
  | null
  | single (v : Val)
  | arr (vs : List Val)
deriving DecidableEq, Repr

/-- One JSON object pushed (`rpush`) onto a job's reply channel.  `none` for
`output` / `logs` / `error` means the corresponding key is absent from the
JSON object: frames built by `handle_message` always carry `status`,
`output` and `logs` (plus `error` when failed), while frames built by
`push_error` carry only `status` and `error`. -/
structure Frame where
  status : Status
  output : Option OutVal
  logs : Option (List String)
  error : Option String
deriving DecidableEq, Repr

/-- What one iteration of a polling loop observes from the runner while
`is_processing()` is still true: the two `has_*_waiting` flags and what
`read_output()` / `read_logs()` would return at that instant. -/
structure Tick where
  output_waiting : Bool
  logs_waiting : Bool
  outputs : List Val
  logs : List String
deriving DecidableEq, Repr

/-- One job's observable behaviour of `self.runner` (`PredictionRunner`):
`is_output_generator()`, the successive polling observations (ticks;
`is_processing()` is true exactly while ticks remain), and what `error()`,
`read_output()` and `read_logs()` return after processing has ended. -/
structure Runner where
  is_output_generator : Bool
  ticks : List Tick
  final_error : Option String
  final_output : List Val
  final_logs : List String
deriving DecidableEq, Repr

/-- `self.runner.error()` observed when `ts` ticks are still pending: the
error surfaces only once `is_processing()` has become false. -/
def errorAt (ts : List Tick) (r : Runner) : Option String :=
  if ts.isEmpty then r.final_error else none

/-- Exceptions that can escape `handle_message` and be caught by the
`except Exception` handler of `RedisQueueWorker.start`. -/
inductive Exn where
  | timedOut (msg : String)
  | assertionError
deriving DecidableEq, Repr

/-- `str(e)` for the exceptions of `Exn`: a `TimeoutError` prints its
message, a bare `AssertionError` prints as the empty string. -/
def exnMessage : Exn → String
  | .timedOut m => m
  | .assertionError => ""

/-- `timeout.__init__`: the stored `self.seconds`
(`seconds - int(elapsed)` when both are given, else `seconds`). -/
def timeout_seconds (seconds : Option Int) (elapsed : Option Int) : Option Int :=
  match seconds, elapsed with
  | some s, some e => some (s - e)
  | s, _ => s

/-- `timeout.__enter__`: with a non-null `seconds <= 0` it raises
`TimeoutError("Prediction timed out")` at once; otherwise it arms the alarm
and raises nothing at entry. -/
def timeout_enter : Option Int → Option Exn
  | none => none
  | some s => if s ≤ 0 then some (.timedOut "Prediction timed out") else none

/-- The frame pushed by `RedisQueueWorker.push_error`:
`{"status": "failed", "error": str(error)}` — no `output`, no `logs`. -/
def push_error_frame (e : String) : Frame :=
  ⟨.failed, none, none, some e⟩

/-- A `processing` frame of the log-only loops: `output` is still `None`
(it is set to `[]` only after the generator check), `logs` is the
accumulator at push time. -/
def procNullFrame (logs : List String) : Frame :=
  ⟨.processing, some .null, some logs, none⟩

/-- Result of the pre-output loop (lines 221-224): the unconsumed ticks, the
log accumulator, and the frames pushed. -/
structure PreOut where
  rest : List Tick
  logs : List String
  frames : List Frame
deriving DecidableEq, Repr

/-- Lines 221-224: `while is_processing() and not has_output_waiting():
if has_logs_waiting(): logs.extend(read_logs()); rpush(response)`.
A tick on which the guard exits because output is waiting is left
unconsumed (the pending output is still there for the next loop). -/
def preLoop : List Tick → List String → PreOut
  | [], logs => ⟨[], logs, []⟩
  | t :: ts, logs =>
    if t.output_waiting then ⟨t :: ts, logs, []⟩
    else if t.logs_waiting then
      let r := preLoop ts (logs ++ t.logs)
      ⟨r.rest, r.logs, procNullFrame (logs ++ t.logs) :: r.frames⟩
    else preLoop ts logs

/-- Result of the scalar-mode log loop: final log accumulator and frames. -/
structure ScalOut where
  logs : List String
  frames : List Frame
deriving DecidableEq, Repr

/-- Lines 271-274 (scalar branch): `while is_processing():
if has_logs_waiting(): logs.extend(read_logs()); rpush(response)`. -/
def scalarLoop : List Tick → List String → ScalOut
  | [], logs => ⟨logs, []⟩
  | t :: ts, logs =>
    if t.logs_waiting then
      let r := scalarLoop ts (logs ++ t.logs)
      ⟨r.logs, procNullFrame (logs ++ t.logs) :: r.frames⟩
    else scalarLoop ts logs

/-- Result of the generator streaming loop: output and log accumulators and
the frames pushed. -/
structure GenOut where
  out : List Val
  logs : List String
  frames : List Frame
deriving DecidableEq, Repr

/-- Lines 235-256 (generator branch): on each iteration, if output or logs
are waiting, read both; when both reads come back empty (spurious wakeup)
push nothing; otherwise extend both accumulators and push a `processing`
frame carrying the whole output list so far. -/
def genLoop (enc : Val → Val) : List Tick → List Val → List String → GenOut
  | [], out, logs => ⟨out, logs, []⟩
  | t :: ts, out, logs =>
    if t.output_waiting || t.logs_waiting then
      let newOut := t.outputs.map enc
      let newLogs := t.logs
      if newOut = [] ∧ newLogs = [] then genLoop enc ts out logs
      else
        let out' := out ++ newOut
        let logs' := logs ++ newLogs
        let r := genLoop enc ts out' logs'
        ⟨r.out, r.logs, ⟨.processing, some (.arr out'), some logs', none⟩ :: r.frames⟩
    else genLoop enc ts out logs

/-- Frames pushed by the body of the `with timeout(...)` block, plus the
exception (if any) escaping it. -/
structure JobOut where
  frames : List Frame
  exn : Option Exn
deriving DecidableEq, Repr

/-- Lines 211-288: `runner.run(...)` followed by the polling protocol.
`enc` is `self.encode_json`.  After the pre-output loop, `error()` is
checked (it reports only if processing has ended); then the generator or
scalar branch runs to completion of processing, checks `error()` again, and
pushes its terminal frame — except that in scalar mode
`assert len(output) == 1` raises `AssertionError` when `read_output()`
does not yield exactly one value. -/
def run_job_after_pre (enc : Val → Val) (r : Runner) (p : PreOut) : JobOut :=
  match errorAt p.rest r with
  | some e => ⟨p.frames ++ [⟨.failed, some .null, some p.logs, some e⟩], none⟩
  | none =>
    if r.is_output_generator then
      match r.final_error with
      | some e =>
        ⟨p.frames ++ (genLoop enc p.rest [] p.logs).frames ++
          [⟨.failed, some (.arr (genLoop enc p.rest [] p.logs).out),
            some (genLoop enc p.rest [] p.logs).logs, some e⟩], none⟩
      | none =>
        ⟨p.frames ++ (genLoop enc p.rest [] p.logs).frames ++
          [⟨.succeeded,
            some (.arr ((genLoop enc p.rest [] p.logs).out ++ r.final_output.map enc)),
            some ((genLoop enc p.rest [] p.logs).logs ++ r.final_logs), none⟩], none⟩
    else
      match r.final_error with
      | some e =>
        ⟨p.frames ++ (scalarLoop p.rest p.logs).frames ++
          [⟨.failed, some .null, some (scalarLoop p.rest p.logs).logs, some e⟩], none⟩
      | none =>
        match r.final_output with
        | [v] =>
          ⟨p.frames ++ (scalarLoop p.rest p.logs).frames ++
            [⟨.succeeded, some (.single (enc v)),
              some ((scalarLoop p.rest p.logs).logs ++ r.final_logs), none⟩], none⟩
        | _ => ⟨p.frames ++ (scalarLoop p.rest p.logs).frames, some .assertionError⟩

/-- The whole `with timeout` body: the pre-output loop on the full tick
sequence, then the rest of the protocol. -/
def run_job (enc : Val → Val) (r : Runner) : JobOut :=
  run_job_after_pre enc r (preLoop r.ticks [])

/-- Observable result of `RedisQueueWorker.handle_message`: the frames
pushed to the reply channel, the exception escaping it (if any), whether
`runner.run` was invoked, and how many cleanup callbacks were appended to
`cleanup_functions`. -/
structure HMResult where
  frames : List Frame
  exn : Option Exn
  ranRun : Bool
  cleanups : Nat
deriving DecidableEq, Repr

/-- `RedisQueueWorker.__init__` and the constants of the class, as far as
the worker's behaviour reads them.  The `predictor` argument only feeds
`get_input_type`; input validation is abstracted as the per-message
`Except String Unit` below, so the predictor does not appear here. -/
structure Worker where
  redis_host : String
  redis_port : Nat
  input_queue : String
  upload_url : String
  consumer_id : String
  model_id : Option String
  log_queue : Option String
  predict_timeout : Option Int
  redis_db : Nat
  max_processing_time : Nat
  setup_time_queue : String
  predict_time_queue : String
  stats_queue_length : Nat
deriving DecidableEq, Repr

/-- `RedisQueueWorker.SETUP_TIME_QUEUE_SUFFIX`. -/
def SETUP_TIME_QUEUE_SUFFIX : String := "-setup-time"

/-- `RedisQueueWorker.RUN_TIME_QUEUE_SUFFIX`. -/
def RUN_TIME_QUEUE_SUFFIX : String := "-run-time"

/-- `RedisQueueWorker.__init__`: stores its arguments and sets
`max_processing_time = 10 * 60`, the two stats stream names, and
`stats_queue_length = 100`. -/
def mkWorker (redis_host : String) (redis_port : Nat) (input_queue : String)
    (upload_url : String) (consumer_id : String) (model_id : Option String)
    (log_queue : Option String) (predict_timeout : Option Int)
    (redis_db : Nat) : Worker :=
  { redis_host := redis_host
    redis_port := redis_port
    input_queue := input_queue
    upload_url := upload_url
    consumer_id := consumer_id
    model_id := model_id
    log_queue := log_queue
    predict_timeout := predict_timeout
    redis_db := redis_db
    max_processing_time := 10 * 60
    setup_time_queue := input_queue ++ SETUP_TIME_QUEUE_SUFFIX
    predict_time_queue := input_queue ++ RUN_TIME_QUEUE_SUFFIX
    stats_queue_length := 100 }

/-- `RedisQueueWorker.handle_message` (lines 192-288).  `inputRes` is the
outcome of `self.InputType(**message["input"])`: `Except.error e` is a
pydantic `ValidationError` printing as `e`, on which `push_error` is called
and the method returns; on success `input_obj.cleanup` is appended to
`cleanup_functions` and the `with timeout(seconds=self.predict_timeout)`
block runs the job. -/
def handle_message (w : Worker) (enc : Val → Val) (inputRes : Except String Unit)
    (r : Runner) : HMResult :=
  match inputRes with
  | .error e => ⟨[push_error_frame e], none, false, 0⟩
  | .ok _ =>
    match timeout_enter (timeout_seconds w.predict_timeout none) with
    | some ex => ⟨[], some ex, false, 1⟩
    | none => ⟨(run_job enc r).frames, (run_job enc r).exn, true, 1⟩

/-- One message as seen by the loop body of `start` after
`receive_message`: the payload fails `json.loads`, or parses but lacks
`response_queue` (both raise before the inner `try`), or is a well-formed
job carrying its validation outcome and the runner behaviour its input
induces. -/
inductive RawMsg where
  | badJson
  | missingResponseQueue
  | good (inputRes : Except String Unit) (r : Runner)

/-- Observable effects of one iteration of the `while not self.should_exit`
loop of `start` on one received message: frames pushed to the reply
channel, whether the message was `xack`ed and `xdel`eted, how many entries
were `xadd`ed to the run-time stream, whether the outer handler logged a
traceback, and the `handle_message` side records. -/
structure IterResult where
  frames : List Frame
  acked : Bool
  deleted : Bool
  runEntries : Nat
  loggedOuter : Bool
  ranRun : Bool
  cleanups : Nat
deriving DecidableEq, Repr

/-- Lines 160-190 of `start`, for one received message: a malformed payload
raises before the inner `try` and is only logged (no ack, no frames); a
well-formed job runs `handle_message` inside the inner `try` — on normal
return the message is acked, deleted and one run-time entry is added; on an
exception `push_error` pushes a terminal failed frame and the message is
acked and deleted with no run-time entry. -/
def process_iteration (w : Worker) (enc : Val → Val) : RawMsg → IterResult
  | .badJson => ⟨[], false, false, 0, true, false, 0⟩
  | .missingResponseQueue => ⟨[], false, false, 0, true, false, 0⟩
  | .good inputRes r =>
    match (handle_message w enc inputRes r).exn with
    | none => ⟨(handle_message w enc inputRes r).frames, true, true, 1, false,
        (handle_message w enc inputRes r).ranRun, (handle_message w enc inputRes r).cleanups⟩
    | some ex => ⟨(handle_message w enc inputRes r).frames ++ [push_error_frame (exnMessage ex)],
        true, true, 0, false,
        (handle_message w enc inputRes r).ranRun, (handle_message w enc inputRes r).cleanups⟩

/-- A stream entry: its id and its field list (name, value pairs), in
stream order.  `XAUTOCLAIM` replies with the fields as a flat array (the
first field first); `xreadgroup` replies with them as a mapping. -/
structure QEntry where
  id : Nat
  fields : List (String × String)
deriving DecidableEq, Repr

/-- The state of the input stream as `receive_message` observes it: the
pending entries of the consumer group (each with its idle time in
milliseconds, listed in id order, lowest first) and the entries not yet
delivered to the group (in id order). -/
structure QueueState where
  pending : List (QEntry × Nat)
  fresh : List QEntry
deriving DecidableEq, Repr

/-- Exceptions that `receive_message` can raise. -/
inductive RecvExn where
  | assertionFailed
  | indexError
  | keyError
deriving DecidableEq, Repr

/-- `XAUTOCLAIM <queue> <queue> <consumer> <minIdle> 0-0 COUNT 1`: claim at
most one pending entry, the lowest-id one whose idle time is at least
`minIdle` milliseconds. -/
def xautoclaim (minIdle : Nat) (pending : List (QEntry × Nat)) : Option QEntry :=
  ((pending.filter fun p => minIdle ≤ p.2).head?).map Prod.fst

/-- Field lookup in an entry's field mapping, as `raw_message[b"value"]`. -/
def lookupField (n : String) : List (String × String) → Option String
  | [] => none
  | (k, v) :: rest => if k = n then some v else lookupField n rest

/-- Result of `RedisQueueWorker.receive_message`: the returned
`(message_id, payload)` pair (or `none` for `(None, None)`, or a raised
exception), and — when the blocking `xreadgroup` was reached — the `block`
argument it was given in milliseconds. -/
structure RecvResult where
  result : Except RecvExn (Option (Nat × String))
  readBlockMs : Option Nat
deriving Repr

/-- `RedisQueueWorker.receive_message` (lines 104-135): first `XAUTOCLAIM`
with min idle `self.max_processing_time * 1000` and `COUNT 1`; a claimed
entry must have `value` as its first field (`assert raw_message[0] ==
b"value"`) and its first field's value is returned without touching the
main queue.  Only when nothing is claimed does it call `xreadgroup` with
`count=1, block=1000`, returning the head fresh entry's `value` field, or
`(None, None)` when there is none. -/
def receive_message (w : Worker) (q : QueueState) : RecvResult :=
  match xautoclaim (w.max_processing_time * 1000) q.pending with
  | some e =>
    match e.fields with
    | [] => ⟨.error .indexError, none⟩
    | (n, v) :: _ =>
      if n = "value" then ⟨.ok (some (e.id, v)), none⟩
      else ⟨.error .assertionFailed, none⟩
  | none =>
    match q.fresh with
    | [] => ⟨.ok none, some 1000⟩
    | e :: _ =>
      match lookupField "value" e.fields with
      | none => ⟨.error .keyError, some 1000⟩
      | some v => ⟨.ok (some (e.id, v)), some 1000⟩

/-- One full iteration of the worker loop of `start` (lines 153-190),
given the stream state: an exception from `receive_message` is caught by
the outer handler and only logged; `(None, None)` makes the loop continue;
a received payload is decoded (`decode` abstracts `json.loads` together
with the runner behaviour the job's input induces) and processed. -/
def start_iteration (w : Worker) (enc : Val → Val) (decode : String → RawMsg)
    (q : QueueState) : IterResult :=
  match (receive_message w q).result with
  | .error _ => ⟨[], false, false, 0, true, false, 0⟩
  | .ok none => ⟨[], false, false, 0, false, false, 0⟩
  | .ok (some (_, payload)) => process_iteration w enc (decode payload)

/-- Observable effects of `RedisQueueWorker.start`: the single
setup-time-stream entry added after `runner.setup()` and before the loop,
and the per-iteration effects. -/
structure WorkerRun where
  setupEntries : Nat
  iters : List IterResult
deriving DecidableEq, Repr

/-- `RedisQueueWorker.start` over a sequence of observed stream states, one
per loop iteration: one `xadd` to the setup-time stream, then the loop. -/
def runWorker (w : Worker) (enc : Val → Val) (decode : String → RawMsg)
    (qs : List QueueState) : WorkerRun :=
  ⟨1, qs.map (start_iteration w enc decode)⟩

/-! ### Frame predicates -/

/-- The `logs` list a consumer reads from a frame, an absent key reading as
empty. -/
def logsD (f : Frame) : List String := f.logs.getD []

/-- A terminal frame: `status` is `succeeded` or `failed`. -/
def isTerminalB (f : Frame) : Bool := f.status == .succeeded || f.status == .failed

/-- All frames of the list are `processing` frames. -/
def allProcessing (fs : List Frame) : Bool := fs.all fun f => f.status == .processing

/-- How many terminal frames a list contains. -/
def terminalCount (fs : List Frame) : Nat := (fs.filter isTerminalB).length

/-- The last frame of the list exists and is terminal. -/
def lastIsTerminal (fs : List Frame) : Bool :=
  match fs.getLast? with
  | some f => isTerminalB f
  | none => false

/-- Some frame of the list is a `succeeded` frame. -/
def hasSucceededB (fs : List Frame) : Bool := fs.any fun f => f.status == .succeeded

/-- The job hit a per-job error: `handle_message` raised, or pushed a
`failed` frame itself. -/
def jobErrored (h : HMResult) : Bool :=
  h.exn.isSome || h.frames.any fun f => f.status == .failed

/-- The logs of consecutive frames form a prefix chain (absent logs keys
reading as empty). -/
def logsChain : List Frame → Prop
  | f :: g :: fs => (logsD f <+: logsD g) ∧ logsChain (g :: fs)
  | _ => True

/-- The logs of the last frame of `fs`, or `l` when `fs` is empty. -/
def lastLogsD (l : List String) : List Frame → List String
  | [] => l
  | f :: fs => lastLogsD (logsD f) fs

/-- The logs of the frames of `fs` form a prefix chain whose first element
extends `l`. -/
def chainFrom (l : List String) : List Frame → Prop
  | [] => True
  | f :: fs => (l <+: logsD f) ∧ chainFrom (logsD f) fs

/-! ### Helper lemmas -/

theorem getLast_of_append_single (xs : List Frame) (t : Frame) :
    (xs ++ [t]).getLast? = some t := by
  rw [List.getLast?_concat]

theorem allProcessing_append (xs ys : List Frame) :
    allProcessing (xs ++ ys) = (allProcessing xs && allProcessing ys) :=
  List.all_append

theorem status_of_mem_allProcessing {fs : List Frame} {f : Frame}
    (h : allProcessing fs = true) (hm : f ∈ fs) : f.status = Status.processing := by
  have := List.all_eq_true.mp h f hm
  simpa using this

theorem preLoop_processing : ∀ (ts : List Tick) (logs : List String),
    allProcessing (preLoop ts logs).frames = true
  | [], _ => rfl
  | t :: ts, logs => by
    by_cases h1 : t.output_waiting = true
    · simp [preLoop, h1, allProcessing]
    · by_cases h2 : t.logs_waiting = true
      · have ih := preLoop_processing ts (logs ++ t.logs)
        simp [preLoop, h1, h2, allProcessing, procNullFrame] at ih ⊢
        exact ih
      · have ih := preLoop_processing ts logs
        simpa [preLoop, h1, h2] using ih

theorem scalarLoop_processing : ∀ (ts : List Tick) (logs : List String),
    allProcessing (scalarLoop ts logs).frames = true
  | [], _ => rfl
  | t :: ts, logs => by
    by_cases h2 : t.logs_waiting = true
    · have ih := scalarLoop_processing ts (logs ++ t.logs)
      simp [scalarLoop, h2, allProcessing, procNullFrame] at ih ⊢
      exact ih
    · have ih := scalarLoop_processing ts logs
      simpa [scalarLoop, h2] using ih

theorem genLoop_processing (enc : Val → Val) : ∀ (ts : List Tick) (out : List Val)
    (logs : List String), allProcessing (genLoop enc ts out logs).frames = true
  | [], _, _ => rfl
  | t :: ts, out, logs => by
    by_cases h1 : (t.output_waiting || t.logs_waiting) = true
    · by_cases h2 : t.outputs = [] ∧ t.logs = []
      · have ih := genLoop_processing enc ts out logs
        simpa [genLoop, h1, h2.1, h2.2] using ih
      · have ih := genLoop_processing enc ts (out ++ t.outputs.map enc) (logs ++ t.logs)
        simp [genLoop, h1, h2, allProcessing] at ih ⊢
        exact ih
    · have ih := genLoop_processing enc ts out logs
      simpa [genLoop, h1] using ih

theorem chainFrom_append : ∀ (fs : List Frame) (l : List String) (gs : List Frame),
    chainFrom l fs → chainFrom (lastLogsD l fs) gs → chainFrom l (fs ++ gs)
  | [], _, _, _, h2 => h2
  | f :: fs, _l, gs, h1, h2 =>
    ⟨h1.1, chainFrom_append fs (logsD f) gs h1.2 h2⟩

theorem chainFrom_logsChain : ∀ (fs : List Frame) (l : List String),
    chainFrom l fs → logsChain fs
  | [], _, _ => trivial
  | [_], _, _ => trivial
  | f :: g :: fs, _l, h =>
    ⟨h.2.1, chainFrom_logsChain (g :: fs) (logsD f) h.2⟩

theorem preLoop_chain : ∀ (ts : List Tick) (logs : List String),
    chainFrom logs (preLoop ts logs).frames ∧
      lastLogsD logs (preLoop ts logs).frames = (preLoop ts logs).logs
  | [], _ => ⟨trivial, rfl⟩
  | t :: ts, logs => by
    by_cases h1 : t.output_waiting = true
    · simp [preLoop, h1, lastLogsD, chainFrom]
    · by_cases h2 : t.logs_waiting = true
      · have ih := preLoop_chain ts (logs ++ t.logs)
        have hp : preLoop (t :: ts) logs =
            ⟨(preLoop ts (logs ++ t.logs)).rest, (preLoop ts (logs ++ t.logs)).logs,
              procNullFrame (logs ++ t.logs) :: (preLoop ts (logs ++ t.logs)).frames⟩ := by
          simp [preLoop, h1, h2]
        rw [hp]
        exact ⟨⟨List.prefix_append logs t.logs, ih.1⟩, ih.2⟩
      · have ih := preLoop_chain ts logs
        simpa [preLoop, h1, h2] using ih

theorem scalarLoop_chain : ∀ (ts : List Tick) (logs : List String),
    chainFrom logs (scalarLoop ts logs).frames ∧
      lastLogsD logs (scalarLoop ts logs).frames = (scalarLoop ts logs).logs
  | [], _ => ⟨trivial, rfl⟩
  | t :: ts, logs => by
    by_cases h2 : t.logs_waiting = true
    · have ih := scalarLoop_chain ts (logs ++ t.logs)
      have hp : scalarLoop (t :: ts) logs =
          ⟨(scalarLoop ts (logs ++ t.logs)).logs,
            procNullFrame (logs ++ t.logs) :: (scalarLoop ts (logs ++ t.logs)).frames⟩ := by
        simp [scalarLoop, h2]
      rw [hp]
      exact ⟨⟨List.prefix_append logs t.logs, ih.1⟩, ih.2⟩
    · have ih := scalarLoop_chain ts logs
      simpa [scalarLoop, h2] using ih

theorem genLoop_chain (enc : Val → Val) : ∀ (ts : List Tick) (out : List Val)
    (logs : List String),
    chainFrom logs (genLoop enc ts out logs).frames ∧
      lastLogsD logs (genLoop enc ts out logs).frames = (genLoop enc ts out logs).logs
  | [], _, _ => ⟨trivial, rfl⟩
  | t :: ts, out, logs => by
    by_cases h1 : (t.output_waiting || t.logs_waiting) = true
    · by_cases h2 : t.outputs = [] ∧ t.logs = []
      · have ih := genLoop_chain enc ts out logs
        simpa [genLoop, h1, h2.1, h2.2] using ih
      · have ih := genLoop_chain enc ts (out ++ t.outputs.map enc) (logs ++ t.logs)
        have hp : genLoop enc (t :: ts) out logs =
            ⟨(genLoop enc ts (out ++ t.outputs.map enc) (logs ++ t.logs)).out,
              (genLoop enc ts (out ++ t.outputs.map enc) (logs ++ t.logs)).logs,
              ⟨.processing, some (.arr (out ++ t.outputs.map enc)), some (logs ++ t.logs),
                none⟩ ::
                (genLoop enc ts (out ++ t.outputs.map enc) (logs ++ t.logs)).frames⟩ := by
          simp [genLoop, h1]
          intro ho hl
          exact absurd ⟨ho, hl⟩ h2
        rw [hp]
        exact ⟨⟨List.prefix_append logs t.logs, ih.1⟩, ih.2⟩
    · have ih := genLoop_chain enc ts out logs
      simpa [genLoop, h1] using ih

theorem run_job_after_pre_shape (enc : Val → Val) (r : Runner) (p : PreOut)
    (hpp : allProcessing p.frames = true) :
    (∃ fs t, (run_job_after_pre enc r p).frames = fs ++ [t] ∧ allProcessing fs = true ∧
      (t.status = Status.succeeded ∨ t.status = Status.failed) ∧
      (run_job_after_pre enc r p).exn = none) ∨
    (allProcessing (run_job_after_pre enc r p).frames = true ∧
      (run_job_after_pre enc r p).exn = some Exn.assertionError) := by
  have hgp := genLoop_processing enc p.rest [] p.logs
  have hsp := scalarLoop_processing p.rest p.logs
  unfold run_job_after_pre
  split
  · left
    exact ⟨_, _, rfl, hpp, Or.inr rfl, rfl⟩
  · split
    · split
      · left
        refine ⟨_, _, by rw [List.append_assoc], ?_, Or.inr rfl, rfl⟩
        rw [allProcessing_append, hpp, hgp]
        rfl
      · left
        refine ⟨_, _, by rw [List.append_assoc], ?_, Or.inl rfl, rfl⟩
        rw [allProcessing_append, hpp, hgp]
        rfl
    · split
      · left
        refine ⟨_, _, by rw [List.append_assoc], ?_, Or.inr rfl, rfl⟩
        rw [allProcessing_append, hpp, hsp]
        rfl
      · split
        · left
          refine ⟨_, _, by rw [List.append_assoc], ?_, Or.inl rfl, rfl⟩
          rw [allProcessing_append, hpp, hsp]
          rfl
        · right
          refine ⟨?_, rfl⟩
          show allProcessing (p.frames ++ (scalarLoop p.rest p.logs).frames) = true
          rw [allProcessing_append, hpp, hsp]
          rfl

theorem lastLogsD_append : ∀ (fs : List Frame) (l : List String) (gs : List Frame),
    lastLogsD l (fs ++ gs) = lastLogsD (lastLogsD l fs) gs
  | [], _, _ => rfl
  | f :: fs, _l, gs => lastLogsD_append fs (logsD f) gs

theorem run_job_after_pre_chain (enc : Val → Val) (r : Runner) (p : PreOut)
    (hc : chainFrom [] p.frames) (hl : lastLogsD [] p.frames = p.logs) :
    chainFrom [] (run_job_after_pre enc r p).frames := by
  have hg := genLoop_chain enc p.rest [] p.logs
  have hs := scalarLoop_chain p.rest p.logs
  unfold run_job_after_pre
  split
  · exact chainFrom_append _ [] _ hc (by
      rw [hl]
      exact ⟨List.prefix_refl _, trivial⟩)
  · split
    · split
      · refine chainFrom_append _ [] _
          (chainFrom_append _ [] _ hc (by rw [hl]; exact hg.1)) ?_
        rw [lastLogsD_append, hl, hg.2]
        exact ⟨List.prefix_refl _, trivial⟩
      · refine chainFrom_append _ [] _
          (chainFrom_append _ [] _ hc (by rw [hl]; exact hg.1)) ?_
        rw [lastLogsD_append, hl, hg.2]
        exact ⟨List.prefix_append _ _, trivial⟩
    · split
      · refine chainFrom_append _ [] _
          (chainFrom_append _ [] _ hc (by rw [hl]; exact hs.1)) ?_
        rw [lastLogsD_append, hl, hs.2]
        exact ⟨List.prefix_refl _, trivial⟩
      · split
        · refine chainFrom_append _ [] _
            (chainFrom_append _ [] _ hc (by rw [hl]; exact hs.1)) ?_
          rw [lastLogsD_append, hl, hs.2]
          exact ⟨List.prefix_append _ _, trivial⟩
        · refine chainFrom_append _ [] _ hc ?_
          rw [hl]
          exact hs.1

theorem handle_message_chainFrom (w : Worker) (enc : Val → Val)
    (ir : Except String Unit) (r : Runner) :
    chainFrom [] (handle_message w enc ir r).frames := by
  unfold handle_message
  split
  · exact ⟨ List.nil_prefix, trivial⟩
  · split
    · trivial
    · show chainFrom [] (run_job enc r).frames
      unfold run_job
      exact run_job_after_pre_chain enc r _ (preLoop_chain r.ticks []).1
        (preLoop_chain r.ticks []).2

theorem handle_message_shape (w : Worker) (enc : Val → Val)
    (ir : Except String Unit) (r : Runner) :
    (∃ fs t, (handle_message w enc ir r).frames = fs ++ [t] ∧ allProcessing fs = true ∧
      (t.status = Status.succeeded ∨ t.status = Status.failed) ∧
      (handle_message w enc ir r).exn = none) ∨
    (allProcessing (handle_message w enc ir r).frames = true ∧
      (handle_message w enc ir r).exn.isSome = true) := by
  unfold handle_message
  split
  · left
    exact ⟨[], push_error_frame _, rfl, rfl, Or.inr rfl, rfl⟩
  · split
    · right
      exact ⟨rfl, rfl⟩
    · show _ ∨ (allProcessing (run_job enc _).frames = true ∧ (run_job enc _).exn.isSome = true)
      unfold run_job
      rcases run_job_after_pre_shape enc r (preLoop r.ticks [])
        (preLoop_processing r.ticks []) with ⟨fs, t, hfr, hfs, hts, hex⟩ | ⟨hall, hex⟩
      · exact Or.inl ⟨fs, t, hfr, hfs, hts, hex⟩
      · exact Or.inr ⟨hall, by rw [hex]; rfl⟩

theorem status_eq_of_mem_any {fs : List Frame} {st : Status}
    (hst : st ≠ Status.processing) (h : allProcessing fs = true) :
    (fs.any fun f => f.status == st) = false := by
  by_contra hb
  rw [Bool.not_eq_false] at hb
  obtain ⟨f, hm, hf⟩ := List.any_eq_true.mp hb
  have hp := status_of_mem_allProcessing h hm
  rw [hp] at hf
  have hps : Status.processing = st := by simpa using hf
  exact hst hps.symm

theorem process_iteration_good_shape (w : Worker) (enc : Val → Val)
    (ir : Except String Unit) (r : Runner) :
    ∃ fs t, (process_iteration w enc (RawMsg.good ir r)).frames = fs ++ [t] ∧
      allProcessing fs = true ∧
      (t.status = Status.succeeded ∨ t.status = Status.failed) := by
  simp only [process_iteration]
  split
  · rename_i he
    rcases handle_message_shape w enc ir r with ⟨fs, t, hfr, hfs, hts, _⟩ | ⟨_, hex⟩
    · exact ⟨fs, t, hfr, hfs, hts⟩
    · rw [he] at hex
      cases hex
  · rename_i ex he
    rcases handle_message_shape w enc ir r with ⟨fs, t, hfr, hfs, hts, hex⟩ | ⟨hall, _⟩
    · rw [he] at hex
      cases hex
    · exact ⟨(handle_message w enc ir r).frames, push_error_frame (exnMessage ex), rfl,
        hall, Or.inr rfl⟩

theorem process_iteration_error_last (w : Worker) (enc : Val → Val)
    (ir : Except String Unit) (r : Runner)
    (hj : jobErrored (handle_message w enc ir r) = true) :
    ((process_iteration w enc (RawMsg.good ir r)).frames.getLast?).map Frame.status =
      some Status.failed := by
  simp only [process_iteration]
  split
  · rename_i he
    rcases handle_message_shape w enc ir r with ⟨fs, t, hfr, hfs, hts, _⟩ | ⟨_, hex⟩
    · show ((handle_message w enc ir r).frames.getLast?).map Frame.status = some Status.failed
      unfold jobErrored at hj
      rw [he, hfr] at hj
      simp only [Option.isSome_none, Bool.false_or, List.any_append] at hj
      rcases Bool.or_eq_true_iff.mp hj with hone | htwo
      · rw [status_eq_of_mem_any (by simp) hfs] at hone
        cases hone
      · rw [hfr, getLast_of_append_single]
        obtain ⟨f, hm, hf⟩ := List.any_eq_true.mp htwo
        have hft : f = t := List.mem_singleton.mp hm
        rw [hft] at hf
        have hts : t.status = Status.failed := by simpa using hf
        simp [hts]
    · rw [he] at hex
      cases hex
  · rename_i ex he
    show (((handle_message w enc ir r).frames ++
      [push_error_frame (exnMessage ex)]).getLast?).map Frame.status = some Status.failed
    rw [getLast_of_append_single]
    rfl

theorem filter_terminal_nil {fs : List Frame} (h : allProcessing fs = true) :
    fs.filter isTerminalB = [] := by
  rw [List.filter_eq_nil_iff]
  intro f hm
  have hp := status_of_mem_allProcessing h hm
  simp [isTerminalB, hp]

theorem isTerminalB_of_status {t : Frame}
    (hts : t.status = Status.succeeded ∨ t.status = Status.failed) :
    isTerminalB t = true := by
  rcases hts with h | h <;> simp [isTerminalB, h]

/-- Claim C1: for every job whose message parses successfully, the reply
channel receives at least one frame and exactly one terminal frame (status
`succeeded` or `failed`), and the terminal frame is the last frame pushed
for the job — no frame follows it. -/
theorem c1_reply_channel_single_terminal_last (w : Worker) (enc : Val → Val)
    (ir : Except String Unit) (r : Runner) :
    1 ≤ (process_iteration w enc (RawMsg.good ir r)).frames.length ∧
    terminalCount (process_iteration w enc (RawMsg.good ir r)).frames = 1 ∧
    lastIsTerminal (process_iteration w enc (RawMsg.good ir r)).frames = true := by
  obtain ⟨fs, t, hfr, hfs, hts⟩ := process_iteration_good_shape w enc ir r
  have htb := isTerminalB_of_status hts
  rw [hfr]
  refine ⟨by simp, ?_, ?_⟩
  · unfold terminalCount
    rw [List.filter_append, filter_terminal_nil hfs]
    simp [List.filter_cons, htb]
  · unfold lastIsTerminal
    rw [getLast_of_append_single]
    exact htb

/-- Claim C2 counterexample: a scalar job that pushes one `processing`
frame with logs `["line1"]` and then violates the single-output assertion
ends with a `push_error` terminal that carries no logs at all, so the logs
across the job's full frame sequence are not append-only. -/
theorem c2_counterexample_push_error_drops_logs :
    ¬ logsChain (process_iteration (mkWorker "host" 6379 "queue" "upload" "consumer"
      none none none 0) id
      (RawMsg.good (Except.ok ())
        ⟨false, [⟨false, true, [], ["line1"]⟩], none, [], []⟩)).frames := by
  intro h
  have he : (process_iteration (mkWorker "host" 6379 "queue" "upload" "consumer"
      none none none 0) id
      (RawMsg.good (Except.ok ())
        ⟨false, [⟨false, true, [], ["line1"]⟩], none, [], []⟩)).frames =
      [⟨Status.processing, some OutVal.null, some ["line1"], none⟩,
        ⟨Status.failed, none, none, some ""⟩] := rfl
  rw [he] at h
  have h1 : logsD ⟨Status.processing, some OutVal.null, some ["line1"], none⟩ <+:
      logsD ⟨Status.failed, none, none, some ""⟩ := h.1
  simp [logsD] at h1

/-- Claim C2 (amended): within the frames pushed by `handle_message`
itself, the logs grow append-only from frame to frame, and a terminal
`failed` frame produced from a runner error carries the logs accumulated so
far; but a terminal pushed by `push_error` after an exception (timeout,
assertion failure) omits the `logs` key entirely, so the full reply-channel
sequence of such a job is not logs-append-only. -/
theorem c2_amended_handle_message_logs_append_only (w : Worker) (enc : Val → Val)
    (ir : Except String Unit) (r : Runner) :
    logsChain (handle_message w enc ir r).frames :=
  chainFrom_logsChain _ [] (handle_message_chainFrom w enc ir r)

/-- Claim C3: every per-job error ends in a terminal `failed` frame on the
reply channel and the message is acked and deleted; a malformed message
(bad JSON or missing `response_queue`) is only logged and is not acked in
that iteration. -/
theorem c3_errors_reported_acked_except_malformed (w : Worker) (enc : Val → Val) :
    (process_iteration w enc RawMsg.badJson).frames = [] ∧
    (process_iteration w enc RawMsg.badJson).acked = false ∧
    (process_iteration w enc RawMsg.badJson).loggedOuter = true ∧
    (process_iteration w enc RawMsg.missingResponseQueue).frames = [] ∧
    (process_iteration w enc RawMsg.missingResponseQueue).acked = false ∧
    (process_iteration w enc RawMsg.missingResponseQueue).loggedOuter = true ∧
    ∀ (ir : Except String Unit) (r : Runner),
      (process_iteration w enc (RawMsg.good ir r)).acked = true ∧
      (process_iteration w enc (RawMsg.good ir r)).deleted = true ∧
      (jobErrored (handle_message w enc ir r) = false ∨
        ((process_iteration w enc (RawMsg.good ir r)).frames.getLast?).map Frame.status =
          some Status.failed) := by
  refine ⟨rfl, rfl, rfl, rfl, rfl, rfl, ?_⟩
  intro ir r
  refine ⟨?_, ?_, ?_⟩
  · simp only [process_iteration]
    split <;> rfl
  · simp only [process_iteration]
    split <;> rfl
  · by_cases hj : jobErrored (handle_message w enc ir r) = true
    · exact Or.inr (process_iteration_error_last w enc ir r hj)
    · exact Or.inl (by simpa using hj)

/-- Claim C4: with `predict_timeout` configured as `0`, entering the
timeout scope raises `timed_out` at once, before `runner.run` is invoked or
polled, and the job ends with a single terminal `failed` frame whose error
string is `"Prediction timed out"`, after which the message is acked (and
deleted). -/
theorem c4_zero_timeout_immediate_failure (rh : String) (rp : Nat)
    (iq uu cid : String) (mid lq : Option String) (db : Nat) (enc : Val → Val)
    (r : Runner) :
    handle_message (mkWorker rh rp iq uu cid mid lq (some 0) db) enc (Except.ok ()) r =
      ⟨[], some (Exn.timedOut "Prediction timed out"), false, 1⟩ ∧
    process_iteration (mkWorker rh rp iq uu cid mid lq (some 0) db) enc
        (RawMsg.good (Except.ok ()) r) =
      ⟨[push_error_frame "Prediction timed out"], true, true, 0, false, false, 1⟩ :=
  ⟨rfl, rfl⟩

/-- Claim C5 counterexample: a job aborted by the zero-second timeout
completes with a terminal `failed` frame and is acked and deleted, yet no
entry is appended to the run-time stream in that iteration. -/
theorem c5_counterexample_failed_job_without_run_entry :
    ((process_iteration (mkWorker "host" 6379 "queue" "upload" "consumer" none none
        (some 0) 0) id
      (RawMsg.good (Except.ok ()) ⟨false, [], none, ["x"], []⟩)).frames.getLast?).map
        Frame.status = some Status.failed ∧
    (process_iteration (mkWorker "host" 6379 "queue" "upload" "consumer" none none
        (some 0) 0) id
      (RawMsg.good (Except.ok ()) ⟨false, [], none, ["x"], []⟩)).acked = true ∧
    (process_iteration (mkWorker "host" 6379 "queue" "upload" "consumer" none none
        (some 0) 0) id
      (RawMsg.good (Except.ok ()) ⟨false, [], none, ["x"], []⟩)).deleted = true ∧
    (process_iteration (mkWorker "host" 6379 "queue" "upload" "consumer" none none
        (some 0) 0) id
      (RawMsg.good (Except.ok ()) ⟨false, [], none, ["x"], []⟩)).runEntries = 0 :=
  ⟨rfl, rfl, rfl, rfl⟩

/-- Claim C5 (amended): the setup-time stream receives exactly one entry
per worker process lifetime, and the run-time stream receives exactly one
entry for each job whose `handle_message` returns normally (succeeded or
failed via a pushed frame) — but zero entries for a job aborted by an
exception such as a timeout or the scalar-output assertion, even though
that job is acked with a terminal `failed` frame. -/
theorem c5_amended_stats_stream_entries (w : Worker) (enc : Val → Val)
    (decode : String → RawMsg) (qs : List QueueState) :
    (runWorker w enc decode qs).setupEntries = 1 ∧
    ∀ (ir : Except String Unit) (r : Runner),
      (process_iteration w enc (RawMsg.good ir r)).runEntries =
        if (handle_message w enc ir r).exn.isSome then 0 else 1 := by
  refine ⟨rfl, ?_⟩
  intro ir r
  simp only [process_iteration]
  split <;> rename_i he <;> rw [he] <;> rfl

/-- Claim C10: on a `ValidationError` from input decoding, `handle_message`
pushes one `failed` frame via `push_error` and returns without invoking
`runner.run` and without appending any cleanup callback, and the message is
then acked. -/
theorem c10_validation_error_no_run_no_cleanup (w : Worker) (enc : Val → Val)
    (r : Runner) (e : String) :
    handle_message w enc (Except.error e) r = ⟨[push_error_frame e], none, false, 0⟩ ∧
    (push_error_frame e).status = Status.failed ∧
    (process_iteration w enc (RawMsg.good (Except.error e) r)).frames =
      [push_error_frame e] ∧
    (process_iteration w enc (RawMsg.good (Except.error e) r)).acked = true :=
  ⟨rfl, rfl, rfl, rfl⟩

/-! ### `model_id` is stored but never read -/

theorem handle_message_ext (w1 w2 : Worker) (h : w1.predict_timeout = w2.predict_timeout)
    (enc : Val → Val) (ir : Except String Unit) (r : Runner) :
    handle_message w1 enc ir r = handle_message w2 enc ir r := by
  unfold handle_message
  rw [h]

theorem receive_message_ext (w1 w2 : Worker)
    (h : w1.max_processing_time = w2.max_processing_time) (q : QueueState) :
    receive_message w1 q = receive_message w2 q := by
  unfold receive_message
  rw [h]

theorem process_iteration_ext (w1 w2 : Worker)
    (h : w1.predict_timeout = w2.predict_timeout) (enc : Val → Val) (m : RawMsg) :
    process_iteration w1 enc m = process_iteration w2 enc m := by
  cases m with
  | badJson => rfl
  | missingResponseQueue => rfl
  | good ir r =>
    simp only [process_iteration]
    rw [handle_message_ext w1 w2 h enc ir r]

theorem start_iteration_ext (w1 w2 : Worker)
    (hp : w1.predict_timeout = w2.predict_timeout)
    (hm : w1.max_processing_time = w2.max_processing_time)
    (enc : Val → Val) (decode : String → RawMsg) (q : QueueState) :
    start_iteration w1 enc decode q = start_iteration w2 enc decode q := by
  unfold start_iteration
  rw [receive_message_ext w1 w2 hm q]
  split
  · rfl
  · rfl
  · exact process_iteration_ext w1 w2 hp enc _

theorem runWorker_ext (w1 w2 : Worker)
    (hp : w1.predict_timeout = w2.predict_timeout)
    (hm : w1.max_processing_time = w2.max_processing_time)
    (enc : Val → Val) (decode : String → RawMsg) (qs : List QueueState) :
    runWorker w1 enc decode qs = runWorker w2 enc decode qs := by
  unfold runWorker
  have hq : ∀ q ∈ qs, start_iteration w1 enc decode q = start_iteration w2 enc decode q :=
    fun q _ => start_iteration_ext w1 w2 hp hm enc decode q
  rw [List.map_congr_left hq]

/-- Claim C8: the worker's observable behaviour is independent of the
`model_id` constructor argument — with all other construction arguments and
all external observations equal, two workers differing only in `model_id`
produce identical runs (frames, acks, deletes, stream entries), identical
`receive_message` results, and identical per-message processing. -/
theorem c8_model_id_independence (rh : String) (rp : Nat) (iq uu cid : String)
    (m1 m2 : Option String) (lq : Option String) (pt : Option Int) (db : Nat)
    (enc : Val → Val) (decode : String → RawMsg) (qs : List QueueState)
    (q : QueueState) (m : RawMsg) (ir : Except String Unit) (r : Runner) :
    runWorker (mkWorker rh rp iq uu cid m1 lq pt db) enc decode qs =
      runWorker (mkWorker rh rp iq uu cid m2 lq pt db) enc decode qs ∧
    receive_message (mkWorker rh rp iq uu cid m1 lq pt db) q =
      receive_message (mkWorker rh rp iq uu cid m2 lq pt db) q ∧
    process_iteration (mkWorker rh rp iq uu cid m1 lq pt db) enc m =
      process_iteration (mkWorker rh rp iq uu cid m2 lq pt db) enc m ∧
    handle_message (mkWorker rh rp iq uu cid m1 lq pt db) enc ir r =
      handle_message (mkWorker rh rp iq uu cid m2 lq pt db) enc ir r :=
  ⟨runWorker_ext _ _ rfl rfl enc decode qs,
   receive_message_ext _ _ rfl q,
   process_iteration_ext _ _ rfl enc m,
   handle_message_ext _ _ rfl enc ir r⟩

theorem receive_message_block_iff (w : Worker) (q : QueueState) :
    (receive_message w q).readBlockMs = none ↔
      (xautoclaim (w.max_processing_time * 1000) q.pending).isSome = true := by
  unfold receive_message
  split
  · rename_i e he
    rw [he]
    split
    · simp
    · split <;> simp
  · rename_i he
    rw [he]
    split
    · simp
    · split <;> simp

theorem receive_message_block_val (w : Worker) (q : QueueState) :
    (receive_message w q).readBlockMs = none ∨
      (receive_message w q).readBlockMs = some 1000 := by
  unfold receive_message
  split
  · split
    · exact Or.inl rfl
    · split <;> exact Or.inl rfl
  · split
    · exact Or.inr rfl
    · split <;> exact Or.inr rfl

theorem receive_message_none_iff (w : Worker) (q : QueueState) :
    (receive_message w q).result = Except.ok none ↔
      (xautoclaim (w.max_processing_time * 1000) q.pending = none ∧ q.fresh = []) := by
  unfold receive_message
  split
  · rename_i e he
    rw [he]
    constructor
    · intro hr
      exfalso
      revert hr
      split
      · simp
      · split <;> simp
    · intro hr
      cases hr.1
  · rename_i he
    rw [he]
    split
    · rename_i hf
      simp [hf]
    · rename_i e es hf
      constructor
      · intro hr
        exfalso
        revert hr
        split <;> simp
      · intro hr
        rw [hr.2] at hf
        cases hf

/-- Claim C7: on every loop iteration, `receive_message` first tries to
reclaim at most one pending entry idle for at least
`max_processing_time * 1000 = 600000` milliseconds; only when nothing is
reclaimed does it perform the blocking read (with `block = 1000`
milliseconds) for a fresh entry, and it returns `(None, None)` exactly when
both yield nothing. -/
theorem c7_reclaim_then_blocking_read (rh : String) (rp : Nat) (iq uu cid : String)
    (mid lq : Option String) (pt : Option Int) (db : Nat) (q : QueueState) :
    (mkWorker rh rp iq uu cid mid lq pt db).max_processing_time * 1000 = 600000 ∧
    ((receive_message (mkWorker rh rp iq uu cid mid lq pt db) q).readBlockMs = none ↔
      (xautoclaim 600000 q.pending).isSome = true) ∧
    ((receive_message (mkWorker rh rp iq uu cid mid lq pt db) q).readBlockMs = none ∨
      (receive_message (mkWorker rh rp iq uu cid mid lq pt db) q).readBlockMs = some 1000) ∧
    ((receive_message (mkWorker rh rp iq uu cid mid lq pt db) q).result = Except.ok none ↔
      (xautoclaim 600000 q.pending = none ∧ q.fresh = [])) := by
  have hm : (mkWorker rh rp iq uu cid mid lq pt db).max_processing_time * 1000 = 600000 := by
    show 10 * 60 * 1000 = 600000
    norm_num
  refine ⟨hm, ?_, receive_message_block_val _ q, ?_⟩
  · rw [← hm]
    exact receive_message_block_iff _ q
  · rw [← hm]
    exact receive_message_none_iff _ q

/-- Claim C9: `receive_message` returns a reclaimed pending entry only when
that entry's first payload field is named `value`; any other first field
name trips the `assert raw_message[0] == b"value"`, so `receive_message`
raises instead — the entry is not returned to the loop, the blocking read
is not reached, and the iteration only logs the failure without acking. -/
theorem c9_reclaimed_first_field_must_be_value (rh : String) (rp : Nat)
    (iq uu cid : String) (mid lq : Option String) (pt : Option Int) (db : Nat)
    (i : Nat) (n v : String) (flds : List (String × String)) (extra : Nat)
    (rest : List (QEntry × Nat)) (fresh : List QEntry) (enc : Val → Val)
    (decode : String → RawMsg) :
    (receive_message (mkWorker rh rp iq uu cid mid lq pt db)
        ⟨(⟨i, (n, v) :: flds⟩, 600000 + extra) :: rest, fresh⟩).result =
      (if n = "value" then Except.ok (some (i, v))
        else Except.error RecvExn.assertionFailed) ∧
    (receive_message (mkWorker rh rp iq uu cid mid lq pt db)
        ⟨(⟨i, (n, v) :: flds⟩, 600000 + extra) :: rest, fresh⟩).readBlockMs = none ∧
    (if n = "value" then True else
      start_iteration (mkWorker rh rp iq uu cid mid lq pt db) enc decode
        ⟨(⟨i, (n, v) :: flds⟩, 600000 + extra) :: rest, fresh⟩ =
        ⟨[], false, false, 0, true, false, 0⟩) := by
  have hle : (mkWorker rh rp iq uu cid mid lq pt db).max_processing_time * 1000 ≤
      600000 + extra := by
    show 10 * 60 * 1000 ≤ 600000 + extra
    omega
  have hx : xautoclaim ((mkWorker rh rp iq uu cid mid lq pt db).max_processing_time * 1000)
      ((⟨i, (n, v) :: flds⟩, 600000 + extra) :: rest) = some ⟨i, (n, v) :: flds⟩ := by
    unfold xautoclaim
    rw [List.filter_cons]
    simp [hle]
  have hr : receive_message (mkWorker rh rp iq uu cid mid lq pt db)
      ⟨(⟨i, (n, v) :: flds⟩, 600000 + extra) :: rest, fresh⟩ =
      (if n = "value" then ⟨Except.ok (some (i, v)), none⟩
        else ⟨Except.error RecvExn.assertionFailed, none⟩ : RecvResult) := by
    unfold receive_message
    rw [hx]
  refine ⟨?_, ?_, ?_⟩
  · rw [hr]
    split <;> rfl
  · rw [hr]
    split <;> rfl
  · by_cases hn : n = "value"
    · simp [hn]
    · rw [if_neg hn]
      unfold start_iteration
      rw [hr, if_neg hn]

/-- Claim C6: in scalar mode with `error() = none`, `read_output()` must
yield exactly one value: then the job ends with a `succeeded` terminal
carrying the encoded value; with zero or more than one value the
`assert len(output) == 1` raises, no `succeeded` frame is ever pushed, and
the job's last reply-channel frame is a `failed` terminal instead. -/
theorem c6_scalar_single_output_invariant (rh : String) (rp : Nat) (iq uu cid : String) (mid lq : Option String)
    (db : Nat) (enc : Val → Val) (ticks : List Tick) (fo : List Val) (fl : List String) :
    (handle_message (mkWorker rh rp iq uu cid mid lq none db) enc (Except.ok ())
        ⟨false, ticks, none, fo, fl⟩).exn =
      (if fo.length = 1 then none else some Exn.assertionError) ∧
    hasSucceededB (handle_message (mkWorker rh rp iq uu cid mid lq none db) enc
        (Except.ok ()) ⟨false, ticks, none, fo, fl⟩).frames = (fo.length == 1) ∧
    ((process_iteration (mkWorker rh rp iq uu cid mid lq none db) enc
        (RawMsg.good (Except.ok ()) ⟨false, ticks, none, fo, fl⟩)).frames.getLast?).map
      Frame.status = some (if fo.length = 1 then Status.succeeded else Status.failed) := by
  have h1 : hasSucceededB (preLoop ticks []).frames = false :=
    status_eq_of_mem_any (by simp) (preLoop_processing ticks [])
  have h2 : hasSucceededB (scalarLoop (preLoop ticks []).rest (preLoop ticks []).logs).frames =
      false :=
    status_eq_of_mem_any (by simp)
      (scalarLoop_processing (preLoop ticks []).rest (preLoop ticks []).logs)
  cases fo with
  | nil =>
    have hhm : handle_message (mkWorker rh rp iq uu cid mid lq none db) enc (Except.ok ())
        ⟨false, ticks, none, [], fl⟩ =
        ⟨(run_job enc ⟨false, ticks, none, [], fl⟩).frames,
          (run_job enc ⟨false, ticks, none, [], fl⟩).exn, true, 1⟩ := rfl
    have herr : errorAt (preLoop ticks []).rest (⟨false, ticks, none, [], fl⟩ : Runner) =
        none := by
      unfold errorAt
      split <;> rfl
    have hrj : run_job enc ⟨false, ticks, none, [], fl⟩ =
        ⟨(preLoop ticks []).frames ++
          (scalarLoop (preLoop ticks []).rest (preLoop ticks []).logs).frames,
          some Exn.assertionError⟩ := by
      show run_job_after_pre enc ⟨false, ticks, none, [], fl⟩ (preLoop ticks []) = _
      unfold run_job_after_pre
      rw [herr]
      rfl
    have hex : (handle_message (mkWorker rh rp iq uu cid mid lq none db) enc (Except.ok ())
        ⟨false, ticks, none, [], fl⟩).exn = some Exn.assertionError := by
      rw [hhm, hrj]
    refine ⟨hex, ?_, ?_⟩
    · rw [hhm, hrj]
      show hasSucceededB ((preLoop ticks []).frames ++
        (scalarLoop (preLoop ticks []).rest (preLoop ticks []).logs).frames) = false
      unfold hasSucceededB
      rw [List.any_append]
      rw [show ((preLoop ticks []).frames.any fun f => f.status == Status.succeeded) =
        false from h1]
      rw [show ((scalarLoop (preLoop ticks []).rest (preLoop ticks []).logs).frames.any
        fun f => f.status == Status.succeeded) = false from h2]
      rfl
    · simp only [process_iteration]
      rw [hex]
      dsimp only
      rw [hhm, hrj]
      dsimp only
      rw [getLast_of_append_single]
      rfl
  | cons v vs =>
    cases vs with
    | nil =>
      have hhm : handle_message (mkWorker rh rp iq uu cid mid lq none db) enc (Except.ok ())
          ⟨false, ticks, none, [v], fl⟩ =
          ⟨(run_job enc ⟨false, ticks, none, [v], fl⟩).frames,
            (run_job enc ⟨false, ticks, none, [v], fl⟩).exn, true, 1⟩ := rfl
      have herr : errorAt (preLoop ticks []).rest (⟨false, ticks, none, [v], fl⟩ : Runner) =
          none := by
        unfold errorAt
        split <;> rfl
      have hrj : run_job enc ⟨false, ticks, none, [v], fl⟩ =
          ⟨(preLoop ticks []).frames ++
            (scalarLoop (preLoop ticks []).rest (preLoop ticks []).logs).frames ++
            [⟨Status.succeeded, some (OutVal.single (enc v)),
              some ((scalarLoop (preLoop ticks []).rest (preLoop ticks []).logs).logs ++ fl),
              none⟩], none⟩ := by
        show run_job_after_pre enc ⟨false, ticks, none, [v], fl⟩ (preLoop ticks []) = _
        unfold run_job_after_pre
        rw [herr]
        rfl
      have hex : (handle_message (mkWorker rh rp iq uu cid mid lq none db) enc (Except.ok ())
          ⟨false, ticks, none, [v], fl⟩).exn = none := by
        rw [hhm, hrj]
      refine ⟨hex, ?_, ?_⟩
      · rw [hhm, hrj]
        show hasSucceededB ((preLoop ticks []).frames ++
          (scalarLoop (preLoop ticks []).rest (preLoop ticks []).logs).frames ++
          [⟨Status.succeeded, some (OutVal.single (enc v)),
            some ((scalarLoop (preLoop ticks []).rest (preLoop ticks []).logs).logs ++ fl),
            none⟩]) = true
        unfold hasSucceededB
        rw [List.any_append, List.any_append]
        rw [show ((preLoop ticks []).frames.any fun f => f.status == Status.succeeded) =
          false from h1]
        rw [show ((scalarLoop (preLoop ticks []).rest (preLoop ticks []).logs).frames.any
          fun f => f.status == Status.succeeded) = false from h2]
        rfl
      · simp only [process_iteration]
        rw [hex]
        dsimp only
        rw [hhm, hrj]
        dsimp only
        rw [getLast_of_append_single]
        rfl
    | cons v2 vs2 =>
      have hhm : handle_message (mkWorker rh rp iq uu cid mid lq none db) enc (Except.ok ())
          ⟨false, ticks, none, v :: v2 :: vs2, fl⟩ =
          ⟨(run_job enc ⟨false, ticks, none, v :: v2 :: vs2, fl⟩).frames,
            (run_job enc ⟨false, ticks, none, v :: v2 :: vs2, fl⟩).exn, true, 1⟩ := rfl
      have herr : errorAt (preLoop ticks []).rest
          (⟨false, ticks, none, v :: v2 :: vs2, fl⟩ : Runner) = none := by
        unfold errorAt
        split <;> rfl
      have hrj : run_job enc ⟨false, ticks, none, v :: v2 :: vs2, fl⟩ =
          ⟨(preLoop ticks []).frames ++
            (scalarLoop (preLoop ticks []).rest (preLoop ticks []).logs).frames,
            some Exn.assertionError⟩ := by
        show run_job_after_pre enc ⟨false, ticks, none, v :: v2 :: vs2, fl⟩
          (preLoop ticks []) = _
        unfold run_job_after_pre
        rw [herr]
        rfl
      have hex : (handle_message (mkWorker rh rp iq uu cid mid lq none db) enc (Except.ok ())
          ⟨false, ticks, none, v :: v2 :: vs2, fl⟩).exn = some Exn.assertionError := by
        rw [hhm, hrj]
      have hlen : ¬ (v :: v2 :: vs2).length = 1 := by
        simp
      refine ⟨?_, ?_, ?_⟩
      · rw [hex, if_neg hlen]
      · rw [hhm, hrj]
        show hasSucceededB ((preLoop ticks []).frames ++
          (scalarLoop (preLoop ticks []).rest (preLoop ticks []).logs).frames) =
          ((v :: v2 :: vs2).length == 1)
        unfold hasSucceededB
        rw [List.any_append]
        rw [show ((preLoop ticks []).frames.any fun f => f.status == Status.succeeded) =
          false from h1]
        rw [show ((scalarLoop (preLoop ticks []).rest (preLoop ticks []).logs).frames.any
          fun f => f.status == Status.succeeded) = false from h2]
        rw [show ((v :: v2 :: vs2).length == 1) = false from by
          rw [beq_eq_false_iff_ne]
          simp]
        rfl
      · simp only [process_iteration]
        rw [hex]
        dsimp only
        rw [hhm, hrj]
        dsimp only
        rw [getLast_of_append_single, if_neg hlen]
        rfl
